import Mathlib

/-!
Shallow embedding of the smart-task-scheduler core (planner-agent.js,
agent-runner.js, ai-service.js, reviewer-agent.js, collector-agent.js).
Times are modelled as integer milliseconds since the epoch; JS numbers used
as rates and confidences are modelled as exact rationals.
-/

/-- A schedule entry as produced by the planner (`schedule` items). -/
structure ScheduleTask where
  taskId : String
  title : String
  startTime : Int
  endTime : Int
  priority : String
  reason : String
deriving DecidableEq, Repr

/-- A detected conflict (`conflicts_detected` items). -/
structure Conflict where
  ctype : String
  tasks : List String
  severity : String
deriving DecidableEq, Repr

/-- An AI-proposed resolution, per the shape consumed by
`applyConflictResolution` (fields `resolution`, `originalTime`, `newTime`,
`reason`, `confidence`). -/
structure Resolution where
  resolution : String
  originalTime : Int
  newTime : Int
  reason : String
  confidence : ℚ
deriving DecidableEq, Repr

/-- One element of the `resolvedConflicts` list built by `resolveConflicts`. -/
structure ResolvedConflict where
  originalConflict : Conflict
  resolution : Option Resolution
  applied : Bool
deriving DecidableEq, Repr

/-- One row appended by `database.saveConflictResolution`. -/
structure ConflictLogEntry where
  taskRef : String
  conflictType : String
  original : Conflict
  resolvedTime : Int
  reason : String
deriving DecidableEq, Repr

/-- `this.conflictThreshold = 0.7` in planner-agent.js. -/
def conflictThreshold : ℚ := 7 / 10

/-- `conflict.tasks?.join(',') || 'unknown'` from planner-agent.js. -/
def conflictTaskRef (c : Conflict) : String :=
  let j := String.intercalate "," c.tasks
  if j = "" then "unknown" else j

/-- The `move_task` branch of `applyConflictResolution`: relocate the first
entry whose `startTime` equals `resolution.originalTime` to `newTime`,
preserving the original duration. -/
def moveTask (r : Resolution) : List ScheduleTask → List ScheduleTask
  | [] => []
  | t :: ts =>
    if t.startTime = r.originalTime then
      { t with startTime := r.newTime,
               endTime := r.newTime + (t.endTime - t.startTime),
               reason := "Moved due to conflict: " ++ r.reason } :: ts
    else t :: moveTask r ts

/-- `applyConflictResolution` from planner-agent.js: only `move_task`
materially alters the schedule; `split_task` and `reschedule_event`
(and anything else) leave it unchanged. -/
def applyConflictResolution (schedule : List ScheduleTask) (r : Resolution) :
    List ScheduleTask :=
  if r.resolution = "move_task" then moveTask r schedule else schedule

/-- Result of `resolveConflicts`: the final schedule, the per-conflict
records, and the rows written to the conflict-resolution log. -/
structure ResolveOutcome where
  schedule : List ScheduleTask
  conflicts : List ResolvedConflict
  logs : List ConflictLogEntry
deriving DecidableEq, Repr

/-- `resolveConflicts` from planner-agent.js. The AI oracle
(`aiService.analyzeConflict`) is a parameter; it sees the conflict and the
current (already partially updated) schedule and returns a resolution or
null. A resolution is applied when `resolution && resolution.confidence >
this.conflictThreshold`; only then is `database.saveConflictResolution`
called. In the other branch the record stores `resolution: null` and
`applied: false`. -/
def resolveConflicts
    (oracle : Conflict → List ScheduleTask → Option Resolution) :
    List Conflict → List ScheduleTask → ResolveOutcome
  | [], sched => ⟨sched, [], []⟩
  | c :: cs, sched =>
    match oracle c sched with
    | some r =>
      if r.confidence > conflictThreshold then
        let rest := resolveConflicts oracle cs (applyConflictResolution sched r)
        ⟨rest.schedule,
         ⟨c, some r, true⟩ :: rest.conflicts,
         ⟨conflictTaskRef c, c.ctype, c, r.newTime, r.reason⟩ :: rest.logs⟩
      else
        let rest := resolveConflicts oracle cs sched
        ⟨rest.schedule, ⟨c, none, false⟩ :: rest.conflicts, rest.logs⟩
    | none =>
      let rest := resolveConflicts oracle cs sched
      ⟨rest.schedule, ⟨c, none, false⟩ :: rest.conflicts, rest.logs⟩

/-- The log row that an applied record accounts for (the applied branch of
`resolveConflicts` writes exactly this row for its conflict/resolution). -/
def logOfRecord (rc : ResolvedConflict) : ConflictLogEntry :=
  match rc.resolution with
  | some r => ⟨conflictTaskRef rc.originalConflict, rc.originalConflict.ctype,
               rc.originalConflict, r.newTime, r.reason⟩
  | none => ⟨conflictTaskRef rc.originalConflict, rc.originalConflict.ctype,
             rc.originalConflict, 0, ""⟩

/-- Modelled from the spec: the 15-minute buffer used by `addBufferTime`.
The code computes `addHours(prevEndTime, bufferMinutes / 60)` with
`bufferMinutes = 15` via the external date-fns library, whose version pin
(package.json) is not among the sources; the spec fixes the semantics as
"predecessor's end plus a 15-minute buffer", i.e. 900000 ms. -/
def bufferMs : Int := 900000

/-- The body of the `i > 0` branch of `addBufferTime`: if the current entry
starts before `prev.endTime + buffer` it is shifted to start exactly at
that boundary, keeping its original duration; otherwise it is untouched. -/
def bufferShift (prev t : ScheduleTask) : ScheduleTask :=
  if t.startTime < prev.endTime + bufferMs then
    { t with startTime := prev.endTime + bufferMs,
             endTime := prev.endTime + bufferMs + (t.endTime - t.startTime) }
  else t

/-- Worker loop of `addBufferTime`: `prev` is the already-buffered
predecessor (`bufferedSchedule[i - 1]`). -/
def addBufferTimeGo : Option ScheduleTask → List ScheduleTask → List ScheduleTask
  | _, [] => []
  | none, t :: ts => t :: addBufferTimeGo (some t) ts
  | some prev, t :: ts =>
    bufferShift prev t :: addBufferTimeGo (some (bufferShift prev t)) ts

/-- `addBufferTime` from planner-agent.js. -/
def addBufferTime (schedule : List ScheduleTask) : List ScheduleTask :=
  addBufferTimeGo none schedule

/-- Outcome record logged by `runFullWorkflow` (`database.logAgentExecution`
with name FULL_WORKFLOW): the status string, the error text if any, and
whether non-null execution results were recorded in the metadata
(`execution: executionResult?.results || null`). -/
structure WorkflowLogEntry where
  status : String
  errorText : Option String
  executionRecorded : Bool
deriving DecidableEq, Repr

/-- `runFullWorkflow` from agent-runner.js, abstracted over the per-phase
results: `runAgent` returns the agent's result or null (it catches agent
errors), so each phase outcome is an `Option`. A null collection or
planning result throws, which the surrounding catch logs as status
"failed"; a null execution result only triggers a console warning and the
workflow is still logged with status "success". -/
def runFullWorkflow {α β γ : Type}
    (collectionResult : Option α) (planningResult : Option β)
    (executionResult : Option γ) : WorkflowLogEntry :=
  match collectionResult with
  | none => ⟨"failed", some "Data collection failed", false⟩
  | some _ =>
    match planningResult with
    | none => ⟨"failed", some "AI planning failed", false⟩
    | some _ => ⟨"success", none, executionResult.isSome⟩

/-- The agents known to `runAgent` (`this.agents` in agent-runner.js). -/
def knownAgents : List String := ["collector", "planner", "executor", "reviewer"]

/-- Observable state of the runner for the mutual-exclusion question:
the multiset (as a list) of phase executions begun and not yet finished,
and the `totalRuns` counter. -/
structure RunnerState where
  inFlight : List String
  totalRuns : Nat
deriving DecidableEq, Repr

/-- Initial runner state. -/
def initialRunnerState : RunnerState := ⟨[], 0⟩

/-- The entry of `runAgent` (agent-runner.js lines 120-133) as a
transition: before `await agent.execute()` the code checks only that the
agent name is known (`this.agents[agentName]`); there is no per-phase
running flag, so beginning an execution never inspects `inFlight`. Returns
`none` exactly when the code logs "Unknown agent" and returns null. -/
def runAgentBegin (s : RunnerState) (agentName : String) : Option RunnerState :=
  if agentName ∈ knownAgents then
    some { s with inFlight := agentName :: s.inFlight,
                  totalRuns := s.totalRuns + 1 }
  else none

/-- Completion of an in-flight execution (the end of `runAgent`). -/
def runAgentFinish (s : RunnerState) (agentName : String) : RunnerState :=
  { s with inFlight := s.inFlight.erase agentName }

/-- A plan proposal as parsed from the oracle (`parsePlanningResponse`). -/
structure PlanProposal where
  schedule : List ScheduleTask
  conflicts_detected : List Conflict
  recommendations : List String
deriving DecidableEq, Repr

/-- The three outcomes of the best-effort JSON extraction in
`parsePlanningResponse`: no `{...}` match in the text, a match that fails
`JSON.parse`, or a successfully parsed structure. -/
inductive OracleText
  | noJsonMatch
  | jsonParseError
  | parsed (p : PlanProposal)
deriving DecidableEq, Repr

/-- `parsePlanningResponse` from ai-service.js: a parse failure degrades to
an empty schedule with a single recommendation string; it never throws. -/
def parsePlanningResponse : OracleText → PlanProposal
  | .parsed p => p
  | .noJsonMatch => ⟨[], [], ["Failed to parse AI response"]⟩
  | .jsonParseError => ⟨[], [], ["Error parsing AI response"]⟩

/-- `generateTaskPlan` from ai-service.js: the model call either yields
response text or throws; a throw is caught and re-thrown as
`new Error('Failed to generate AI plan')`. -/
def generateTaskPlan (modelResult : Except String OracleText) :
    Except String PlanProposal :=
  match modelResult with
  | .error _ => .error "Failed to generate AI plan"
  | .ok t => .ok (parsePlanningResponse t)

/-- A task as seen by the reviewer (`formatTaskForAnalysis`): only the
priority matters for the completion-rate update. -/
structure RTask where
  title : String
  priority : String
deriving DecidableEq, Repr

/-- Number of tasks of priority `p` in a list. -/
def countPriority (ts : List RTask) (p : String) : ℕ :=
  (ts.filter (fun t => t.priority = p)).length

/-- Lookup in the stored `taskCompletionRates` map (keyed by priority). -/
def lookupRate (current : List (String × ℚ)) (p : String) : Option ℚ :=
  (current.find? (fun kv => kv.1 = p)).map (fun kv => kv.2)

/-- `stats.completed / stats.total` for a priority over the period. -/
def periodRate (completed missed : List RTask) (p : String) : ℚ :=
  (countPriority completed p : ℚ) /
    ((countPriority completed p + countPriority missed p : ℕ) : ℚ)

/-- `updateCompletionRates` from reviewer-agent.js, viewed at one priority
key `p`: for each priority present among completed+missed tasks the code
computes `newRate = completed/total` and then runs
`if (updated[priority]) { updated[priority] = updated[priority]*0.7 +
newRate*0.3 } else { updated[priority] = newRate }`. JS truthiness means
the blend happens only when a prior value exists AND is nonzero; a stored
rate of `0` falls into the else branch. Priorities absent from the period
keep their stored value. -/
def updateCompletionRate (current : List (String × ℚ))
    (completed missed : List RTask) (p : String) : Option ℚ :=
  if countPriority completed p + countPriority missed p = 0 then
    lookupRate current p
  else
    match lookupRate current p with
    | some v => if v ≠ 0 then
        some (v * (7 / 10) + periodRate completed missed p * (3 / 10))
      else some (periodRate completed missed p)
    | none => some (periodRate completed missed p)

/-- The maxDailyTasks adaptation in `adaptUserPreferences`
(reviewer-agent.js): `if (rate < 0.7 && currentPrefs.maxDailyTasks > 3)`
then `Math.max(3, maxDailyTasks - 1)`; `else if (rate > 0.9 &&
currentPrefs.maxDailyTasks < 12)` then `Math.min(12, (maxDailyTasks || 8)
+ 1)`; otherwise unchanged. When the preference is unset, both JS
comparisons against `undefined` are false, so nothing changes. -/
def adaptMaxDailyTasks : Option Int → ℚ → Option Int
  | none, _ => none
  | some v, rate =>
    if rate < 7 / 10 ∧ v > 3 then some (max 3 (v - 1))
    else if rate > 9 / 10 ∧ v < 12 then
      some (min 12 ((if v = 0 then 8 else v) + 1))
    else some v

/-- `isPlanFresh` from planner-agent.js: fresh iff a `last_planning_time`
exists and `(now - lastTime) / 3600000 < 2`. -/
def isPlanFresh (lastPlanning : Option Int) (now : Int) : Bool :=
  match lastPlanning with
  | none => false
  | some t => decide ((((now - t : Int) : ℚ) / 3600000) < 2)

/-- `isDataFresh` from collector-agent.js: fresh iff a
`last_collection_time` exists and `(now - lastTime) / 60000 < 20`. -/
def isDataFresh (lastCollection : Option Int) (now : Int) : Bool :=
  match lastCollection with
  | none => false
  | some t => decide ((((now - t : Int) : ℚ) / 60000) < 20)

/-- The entry-correspondence used for the buffer pass: the output entry is
the input entry with identity fields untouched and a start time that never
moves earlier. -/
def sameEntryShiftedLater (a b : ScheduleTask) : Prop :=
  b.taskId = a.taskId ∧ b.title = a.title ∧ b.priority = a.priority ∧
    b.reason = a.reason ∧ a.startTime ≤ b.startTime

/-- A sample conflict used in concrete instantiations. -/
def cexConflict : Conflict := ⟨"overlap", ["task1", "task2"], "high"⟩

/-- An oracle that always answers with a low-confidence (0.5) `move_task`
resolution. -/
def cexLowOracle : Conflict → List ScheduleTask → Option Resolution :=
  fun _ _ => some ⟨"move_task", 0, 3600000, "shift later", 1 / 2⟩

/-- A sample high-confidence (0.8) resolution. -/
def wHighRes : Resolution := ⟨"move_task", 0, 7200000, "move later", 4 / 5⟩

/-- An oracle that always answers with `wHighRes`. -/
def wHighOracle : Conflict → List ScheduleTask → Option Resolution :=
  fun _ _ => some wHighRes

/-- A sample completed High-priority task. -/
def cexRTask : RTask := ⟨"write report", "High"⟩

/-- A second sample High-priority task (missed in the witness period). -/
def wRTaskMissed : RTask := ⟨"review notes", "High"⟩

/-! ## Helper lemmas -/

theorem bufferShift_start_ge (prev t : ScheduleTask) :
    prev.endTime + bufferMs ≤ (bufferShift prev t).startTime := by
  unfold bufferShift
  split_ifs with h
  · exact le_refl _
  · exact le_of_not_lt h

theorem bufferShift_duration (prev t : ScheduleTask) :
    (bufferShift prev t).endTime - (bufferShift prev t).startTime
      = t.endTime - t.startTime := by
  unfold bufferShift
  split_ifs with h
  · simp
  · rfl

theorem bufferShift_same_entry (prev t : ScheduleTask) :
    sameEntryShiftedLater t (bufferShift prev t) := by
  unfold bufferShift sameEntryShiftedLater
  split_ifs with h
  · exact ⟨rfl, rfl, rfl, rfl, le_of_lt h⟩
  · exact ⟨rfl, rfl, rfl, rfl, le_refl _⟩

theorem addBufferTimeGo_chain (ts : List ScheduleTask) :
    ∀ p : ScheduleTask,
      List.Chain' (fun a b => a.endTime + bufferMs ≤ b.startTime)
        (p :: addBufferTimeGo (some p) ts) := by
  induction ts with
  | nil =>
    intro p
    simp [addBufferTimeGo]
  | cons t ts ih =>
    intro p
    rw [show addBufferTimeGo (some p) (t :: ts)
          = bufferShift p t :: addBufferTimeGo (some (bufferShift p t)) ts from rfl]
    exact List.chain'_cons.mpr ⟨bufferShift_start_ge p t, ih (bufferShift p t)⟩

theorem addBufferTimeGo_durations (ts : List ScheduleTask) :
    ∀ p : Option ScheduleTask,
      (addBufferTimeGo p ts).map (fun t => t.endTime - t.startTime)
        = ts.map (fun t => t.endTime - t.startTime) := by
  induction ts with
  | nil => intro p; cases p <;> rfl
  | cons t ts ih =>
    intro p
    cases p with
    | none =>
      simpa [addBufferTimeGo] using ih (some t)
    | some prev =>
      simpa [addBufferTimeGo, bufferShift_duration prev t]
        using ih (some (bufferShift prev t))

theorem addBufferTimeGo_forall₂ (ts : List ScheduleTask) :
    ∀ p : Option ScheduleTask,
      List.Forall₂ sameEntryShiftedLater ts (addBufferTimeGo p ts) := by
  induction ts with
  | nil => intro p; cases p <;> exact List.Forall₂.nil
  | cons t ts ih =>
    intro p
    cases p with
    | none =>
      exact List.Forall₂.cons ⟨rfl, rfl, rfl, rfl, le_refl _⟩ (ih (some t))
    | some prev =>
      exact List.Forall₂.cons (bufferShift_same_entry prev t)
        (ih (some (bufferShift prev t)))

/-! ## Claim theorems: buffer pass -/

/-- C3: after the buffer-insertion pass, every pair of consecutive entries
(A before B) satisfies `B.start ≥ A.end + 15 minutes` (bufferMs = 900000
ms), and every entry's duration in the output equals its duration in the
input. -/
theorem addBufferTime_buffer_invariant (s : List ScheduleTask) :
    List.Chain' (fun a b => a.endTime + bufferMs ≤ b.startTime)
      (addBufferTime s)
    ∧ (addBufferTime s).map (fun t => t.endTime - t.startTime)
        = s.map (fun t => t.endTime - t.startTime) := by
  constructor
  · cases s with
    | nil => simp [addBufferTime, addBufferTimeGo]
    | cons a ts => exact addBufferTimeGo_chain ts a
  · exact addBufferTimeGo_durations s none

/-- C10: the buffer-insertion pass preserves the number of entries and
their order (each output entry is the corresponding input entry, with its
identity fields untouched), and it never moves an entry earlier: every
output start time is ≥ the corresponding input start time. -/
theorem addBufferTime_preserves_entries (s : List ScheduleTask) :
    (addBufferTime s).length = s.length
    ∧ List.Forall₂ sameEntryShiftedLater s (addBufferTime s) := by
  have h := addBufferTimeGo_forall₂ s (none : Option ScheduleTask)
  exact ⟨(List.Forall₂.length_eq h).symm, h⟩

/-! ## Claim theorems: orchestration -/

/-- C5: in the combined workflow, a null collection result or a null
planning result makes the workflow log status "failed" (fatal), while a
null execution result does not: the workflow still logs "success", with
the execution results recorded as null exactly when execution failed. -/
theorem runFullWorkflow_failure_policy (α β γ : Type)
    (cr : α) (pr : β) (p : Option β) (e : Option γ) :
    (runFullWorkflow (none : Option α) p e).status = "failed"
    ∧ (runFullWorkflow (some cr) (none : Option β) e).status = "failed"
    ∧ (runFullWorkflow (some cr) (some pr) e).status = "success"
    ∧ (runFullWorkflow (some cr) (some pr) e).errorText = none
    ∧ (runFullWorkflow (some cr) (some pr) e).executionRecorded = e.isSome :=
  ⟨rfl, rfl, rfl, rfl, rfl⟩

/-- C2 counterexample: starting the `collector` phase twice without the
first execution finishing is not rejected or queued; the second
`runAgentBegin` succeeds and afterwards two `collector` executions are in
flight at once. -/
theorem runner_single_flight_cex :
    runAgentBegin initialRunnerState "collector" = some ⟨["collector"], 1⟩
    ∧ runAgentBegin ⟨["collector"], 1⟩ "collector"
        = some ⟨["collector", "collector"], 2⟩
    ∧ (RunnerState.mk ["collector", "collector"] 2).inFlight.count "collector"
        = 2 := by
  refine ⟨by decide, by decide, by decide⟩

/-- C2 amended: `runAgent` performs no single-flight check: for every
runner state and known phase name, beginning an execution succeeds
unconditionally and increments that phase's in-flight count, regardless of
how many executions of the same phase are already running. -/
theorem runAgent_no_rejection (s : RunnerState) (agentName : String)
    (h : agentName ∈ knownAgents) :
    runAgentBegin s agentName
      = some ⟨agentName :: s.inFlight, s.totalRuns + 1⟩
    ∧ (agentName :: s.inFlight).count agentName
        = s.inFlight.count agentName + 1 := by
  constructor
  · simp [runAgentBegin, h]
  · simp

/-- Witness for the amended C2 theorem at a state where one `collector`
execution is already in flight. -/
theorem runAgent_no_rejection_witness :
    runAgentBegin ⟨["collector"], 5⟩ "collector"
      = some ⟨"collector" :: ["collector"], 5 + 1⟩
    ∧ ("collector" :: ["collector"]).count "collector"
        = (["collector"] : List String).count "collector" + 1 :=
  runAgent_no_rejection ⟨["collector"], 5⟩ "collector" (by decide)

/-! ## Claim theorems: AI service boundary -/

/-- C6 counterexample: when the oracle call itself fails (unreachable), the
failure IS propagated as an exception past the oracle boundary:
`generateTaskPlan` re-throws `Failed to generate AI plan` instead of
degrading to an empty schedule. -/
theorem generateTaskPlan_unreachable_cex :
    generateTaskPlan (Except.error "network unreachable")
      = Except.error "Failed to generate AI plan"
    ∧ ¬ ∃ p, generateTaskPlan (Except.error "network unreachable")
        = Except.ok p := by
  refine ⟨rfl, ?_⟩
  rintro ⟨p, h⟩
  simp [generateTaskPlan] at h

/-- C6 amended: only unparsable oracle OUTPUT degrades softly: when the
model call returns text, `generateTaskPlan` always returns a plan, and a
parse failure yields an empty schedule with a single recommendation
flagging the failure; but when the model call throws (oracle unreachable),
`generateTaskPlan` re-throws `Failed to generate AI plan`. -/
theorem generateTaskPlan_soft_and_hard_failure (t : OracleText) (e : String) :
    generateTaskPlan (Except.ok t) = Except.ok (parsePlanningResponse t)
    ∧ (parsePlanningResponse OracleText.noJsonMatch).schedule = []
    ∧ (parsePlanningResponse OracleText.noJsonMatch).recommendations
        = ["Failed to parse AI response"]
    ∧ (parsePlanningResponse OracleText.jsonParseError).schedule = []
    ∧ (parsePlanningResponse OracleText.jsonParseError).recommendations
        = ["Error parsing AI response"]
    ∧ generateTaskPlan (Except.error e)
        = Except.error "Failed to generate AI plan" :=
  ⟨rfl, rfl, rfl, rfl, rfl, rfl⟩

/-! ## Claim theorems: freshness -/

/-- C9: freshness uses strict comparison: a plan exactly 120 minutes old is
not fresh, one 119 minutes old is; data exactly 20 minutes old is not
fresh, anything strictly newer is; a missing timestamp is never fresh. -/
theorem freshness_boundaries (now : Int) :
    isPlanFresh none now = false
    ∧ isDataFresh none now = false
    ∧ isPlanFresh (some (now - 120 * 60000)) now = false
    ∧ isPlanFresh (some (now - 119 * 60000)) now = true
    ∧ isDataFresh (some (now - 20 * 60000)) now = false
    ∧ (∀ t : Int, now - 20 * 60000 < t → isDataFresh (some t) now = true) := by
  refine ⟨rfl, rfl, ?_, ?_, ?_, ?_⟩
  · simp only [isPlanFresh, decide_eq_false_iff_not, not_lt]
    have h : now - (now - 120 * 60000) = 7200000 := by ring
    rw [h]
    norm_num
  · simp only [isPlanFresh, decide_eq_true_eq]
    have h : now - (now - 119 * 60000) = 7140000 := by ring
    rw [h]
    norm_num
  · simp only [isDataFresh, decide_eq_false_iff_not, not_lt]
    have h : now - (now - 20 * 60000) = 1200000 := by ring
    rw [h]
    norm_num
  · intro t ht
    simp only [isDataFresh, decide_eq_true_eq]
    have h : ((now - t : Int) : ℚ) < 1200000 := by
      exact_mod_cast (by omega : (now - t : Int) < 1200000)
    rw [div_lt_iff₀ (by norm_num : (0:ℚ) < 60000)]
    linarith

/-- Witness for C9 at `now = 0`, with data collected 19 minutes ago. -/
theorem freshness_boundaries_witness :
    isDataFresh (some (0 - 19 * 60000)) 0 = true
    ∧ isPlanFresh (some (0 - 120 * 60000)) 0 = false :=
  ⟨(freshness_boundaries 0).2.2.2.2.2 (0 - 19 * 60000) (by norm_num),
   (freshness_boundaries 0).2.2.1⟩

/-! ## Claim theorems: preference adaptation -/

theorem adaptMaxDailyTasks_step (v : Int) (rate : ℚ)
    (h3 : 3 ≤ v) (h12 : v ≤ 12) :
    ∃ v', adaptMaxDailyTasks (some v) rate = some v'
      ∧ 3 ≤ v' ∧ v' ≤ 12
      ∧ (rate < 7 / 10 → v' = max 3 (v - 1))
      ∧ (rate > 9 / 10 → v' = min 12 (v + 1))
      ∧ (7 / 10 ≤ rate → rate ≤ 9 / 10 → v' = v) := by
  have hv0 : ¬ v = 0 := by omega
  rw [show adaptMaxDailyTasks (some v) rate
        = (if rate < 7 / 10 ∧ v > 3 then some (max 3 (v - 1))
           else if rate > 9 / 10 ∧ v < 12 then
             some (min 12 ((if v = 0 then 8 else v) + 1))
           else some v) from rfl]
  by_cases h1 : rate < 7 / 10 ∧ v > 3
  · rw [if_pos h1]
    refine ⟨max 3 (v - 1), rfl, le_max_left _ _, by omega, fun _ => rfl, ?_, ?_⟩
    · intro hr
      exact absurd h1.1 (by linarith)
    · intro hge _
      exact absurd h1.1 (by linarith)
  · rw [if_neg h1]
    by_cases h2 : rate > 9 / 10 ∧ v < 12
    · rw [if_pos h2, if_neg hv0]
      refine ⟨min 12 (v + 1), rfl, by omega, min_le_left _ _, ?_, fun _ => rfl, ?_⟩
      · intro hr
        exact absurd h2.1 (by linarith)
      · intro _ hle
        exact absurd h2.1 (by linarith)
    · rw [if_neg h2]
      refine ⟨v, rfl, h3, h12, ?_, ?_, fun _ _ => rfl⟩
      · intro hr
        have hv3 : ¬ v > 3 := fun hv => h1 ⟨hr, hv⟩
        omega
      · intro hr
        have hv12 : ¬ v < 12 := fun hv => h2 ⟨hr, hv⟩
        omega

theorem adaptMaxDailyTasks_foldl (rates : List ℚ) :
    ∀ v : Int, 3 ≤ v → v ≤ 12 →
      ∃ w, rates.foldl adaptMaxDailyTasks (some v) = some w
        ∧ 3 ≤ w ∧ w ≤ 12 := by
  induction rates with
  | nil =>
    intro v h3 h12
    exact ⟨v, rfl, h3, h12⟩
  | cons r rs ih =>
    intro v h3 h12
    obtain ⟨v', hstep, hl, hu, -, -, -⟩ := adaptMaxDailyTasks_step v r h3 h12
    simpa [hstep] using ih v' hl hu

/-- C8: starting from maxDailyTasks in [3,12], every adaptation call keeps
it in [3,12]: a period rate < 0.7 yields `max 3 (v-1)`, a rate > 0.9
yields `min 12 (v+1)`, anything in [0.7,0.9] leaves it unchanged; and any
sequence of adaptation calls stays within [3,12]. -/
theorem adaptMaxDailyTasks_bounds_spec (v : Int) (rate : ℚ) (rates : List ℚ)
    (h3 : 3 ≤ v) (h12 : v ≤ 12) :
    (∃ v', adaptMaxDailyTasks (some v) rate = some v'
      ∧ 3 ≤ v' ∧ v' ≤ 12
      ∧ (rate < 7 / 10 → v' = max 3 (v - 1))
      ∧ (rate > 9 / 10 → v' = min 12 (v + 1))
      ∧ (7 / 10 ≤ rate → rate ≤ 9 / 10 → v' = v))
    ∧ (∃ w, rates.foldl adaptMaxDailyTasks (some v) = some w
        ∧ 3 ≤ w ∧ w ≤ 12) :=
  ⟨adaptMaxDailyTasks_step v rate h3 h12,
   adaptMaxDailyTasks_foldl rates v h3 h12⟩

/-- Witness for C8 at `v = 8`, a single rate of 0.95 and the rate sequence
[0.5, 1, 0]. -/
theorem adaptMaxDailyTasks_bounds_spec_witness :
    (∃ v', adaptMaxDailyTasks (some 8) (19 / 20) = some v'
      ∧ 3 ≤ v' ∧ v' ≤ 12
      ∧ ((19 : ℚ) / 20 < 7 / 10 → v' = max 3 (8 - 1))
      ∧ ((19 : ℚ) / 20 > 9 / 10 → v' = min 12 (8 + 1))
      ∧ ((7 : ℚ) / 10 ≤ 19 / 20 → (19 : ℚ) / 20 ≤ 9 / 10 → v' = 8))
    ∧ (∃ w, ([1 / 2, 1, 0] : List ℚ).foldl adaptMaxDailyTasks (some 8)
          = some w ∧ 3 ≤ w ∧ w ≤ 12) :=
  adaptMaxDailyTasks_bounds_spec 8 (19 / 20) [1 / 2, 1, 0]
    (by norm_num) (by norm_num)

/-! ## Claim theorems: completion-rate learning -/

/-- C7 counterexample: with a stored prior rate of exactly 0 for High and a
period of one completed High task (period rate 1), the code adopts 1
directly (JS truthiness treats the prior 0 as absent), not the blended
`0.7*0 + 0.3*1 = 0.3` the claim prescribes for an existing prior value. -/
theorem updateCompletionRate_zero_prior_cex :
    updateCompletionRate [("High", 0)] [cexRTask] [] "High" = some 1
    ∧ ((0 : ℚ) * (7 / 10) + 1 * (3 / 10)) ≠ 1 := by
  constructor
  · have hstep : updateCompletionRate [("High", 0)] [cexRTask] [] "High"
        = some (periodRate [cexRTask] [] "High") := rfl
    have hc1 : countPriority [cexRTask] "High" = 1 := by decide
    have hc2 : countPriority ([] : List RTask) "High" = 0 := by decide
    rw [hstep]
    simp only [periodRate, hc1, hc2]
    norm_num
  · norm_num

/-- C7 amended: for a priority present in the period, the update blends
`0.7*previous + 0.3*newRate` only when a prior NONZERO value exists; when
no prior value exists or the prior value is 0 it adopts the period rate
directly. The stored rate is still an exact fixed point: updating with a
period rate equal to the stored rate r leaves exactly r. -/
theorem updateCompletionRate_blend_spec (current : List (String × ℚ))
    (completed missed : List RTask) (p : String)
    (htot : countPriority completed p + countPriority missed p ≠ 0) :
    (∀ v, lookupRate current p = some v → v ≠ 0 →
        updateCompletionRate current completed missed p
          = some (v * (7 / 10) + periodRate completed missed p * (3 / 10)))
    ∧ (lookupRate current p = none →
        updateCompletionRate current completed missed p
          = some (periodRate completed missed p))
    ∧ (lookupRate current p = some 0 →
        updateCompletionRate current completed missed p
          = some (periodRate completed missed p))
    ∧ (∀ r, lookupRate current p = some r →
        periodRate completed missed p = r →
        updateCompletionRate current completed missed p = some r) := by
  refine ⟨?_, ?_, ?_, ?_⟩
  · intro v hv hv0
    simp [updateCompletionRate, htot, hv, hv0]
  · intro hnone
    simp [updateCompletionRate, htot, hnone]
  · intro h0
    simp [updateCompletionRate, htot, h0]
  · intro r hr hrate
    by_cases hr0 : r = 0
    · subst hr0
      simp [updateCompletionRate, htot, hr, hrate]
    · have key : r * (7 / 10) + periodRate completed missed p * (3 / 10) = r := by
        rw [hrate]; ring
      simp [updateCompletionRate, htot, hr, hr0, key]

/-- Witness for the amended C7 theorem: stored rate 1/2 for High, period
with one completed and one missed High task (period rate 1/2): the stored
value stays exactly 1/2. -/
theorem updateCompletionRate_blend_spec_witness :
    updateCompletionRate [("High", 1 / 2)] [cexRTask] [wRTaskMissed] "High"
      = some (1 / 2) :=
  (updateCompletionRate_blend_spec [("High", 1 / 2)] [cexRTask] [wRTaskMissed]
      "High" (by decide)).2.2.2 (1 / 2) (by rfl)
    (by
      have hc1 : countPriority [cexRTask] "High" = 1 := by decide
      have hm1 : countPriority [wRTaskMissed] "High" = 1 := by decide
      simp only [periodRate, hc1, hm1]
      norm_num)

/-! ## Claim theorems: conflict resolution logging -/

/-- C4 counterexample: a conflict whose resolution has confidence 0.5 is
rejected, and NO record is written to the resolution log (`logs = []`),
although the conflict does appear in the returned list with
`applied: false` — rejected resolutions are not logged. -/
theorem resolveConflicts_rejected_not_logged_cex :
    (resolveConflicts cexLowOracle [cexConflict] []).logs = []
    ∧ (resolveConflicts cexLowOracle [cexConflict] []).conflicts
        = [⟨cexConflict, none, false⟩] := by
  have hconf : ¬ (conflictThreshold < ((2 : ℚ))⁻¹) := by
    norm_num [conflictThreshold]
  constructor <;> simp [resolveConflicts, cexLowOracle, hconf]

/-- C4 amended: the resolution log receives exactly one record per APPLIED
resolution (containing the original conflict, its task reference and type,
and the applied new time and reason); rejected or null resolutions are not
logged and are recorded only in the returned conflicts list. -/
theorem resolveConflicts_logs_applied_only
    (oracle : Conflict → List ScheduleTask → Option Resolution)
    (cs : List Conflict) (sched : List ScheduleTask) :
    (resolveConflicts oracle cs sched).logs
      = ((resolveConflicts oracle cs sched).conflicts.filter
          (fun rc => rc.applied)).map logOfRecord := by
  induction cs generalizing sched with
  | nil => rfl
  | cons c cs ih =>
    cases hor : oracle c sched with
    | none =>
      simp [resolveConflicts, hor, ih]
    | some r =>
      by_cases hc : r.confidence > conflictThreshold
      · simp [resolveConflicts, hor, hc, ih, logOfRecord]
      · simp [resolveConflicts, hor, hc, ih]

/-! ## Claim theorems: confidence-gated conflict resolution -/

theorem resolveConflicts_map_orig
    (oracle : Conflict → List ScheduleTask → Option Resolution)
    (cs : List Conflict) :
    ∀ sched : List ScheduleTask,
      (resolveConflicts oracle cs sched).conflicts.map
        (fun rc => rc.originalConflict) = cs := by
  induction cs with
  | nil => intro sched; rfl
  | cons c cs ih =>
    intro sched
    cases hor : oracle c sched with
    | none => simp [resolveConflicts, hor, ih]
    | some r =>
      by_cases hc : r.confidence > conflictThreshold
      · simp [resolveConflicts, hor, hc, ih]
      · simp [resolveConflicts, hor, hc, ih]

theorem resolveConflicts_applied_iff
    (oracle : Conflict → List ScheduleTask → Option Resolution)
    (cs : List Conflict) :
    ∀ sched : List ScheduleTask,
      ∀ rc ∈ (resolveConflicts oracle cs sched).conflicts,
        (rc.applied = true ↔
          ∃ r, rc.resolution = some r ∧ r.confidence > conflictThreshold) := by
  induction cs with
  | nil =>
    intro sched rc h
    simp [resolveConflicts] at h
  | cons c cs ih =>
    intro sched rc hrc
    cases hor : oracle c sched with
    | none =>
      rw [show resolveConflicts oracle (c :: cs) sched
            = ⟨(resolveConflicts oracle cs sched).schedule,
               ⟨c, none, false⟩ :: (resolveConflicts oracle cs sched).conflicts,
               (resolveConflicts oracle cs sched).logs⟩ by
          simp [resolveConflicts, hor]] at hrc
      rcases List.mem_cons.mp hrc with h | h
      · subst h; simp
      · exact ih sched rc h
    | some r =>
      by_cases hc : r.confidence > conflictThreshold
      · rw [show resolveConflicts oracle (c :: cs) sched
              = ⟨(resolveConflicts oracle cs
                    (applyConflictResolution sched r)).schedule,
                 ⟨c, some r, true⟩ :: (resolveConflicts oracle cs
                    (applyConflictResolution sched r)).conflicts,
                 ⟨conflictTaskRef c, c.ctype, c, r.newTime, r.reason⟩ ::
                   (resolveConflicts oracle cs
                    (applyConflictResolution sched r)).logs⟩ by
            simp [resolveConflicts, hor, hc]] at hrc
        rcases List.mem_cons.mp hrc with h | h
        · subst h
          exact ⟨fun _ => ⟨r, rfl, hc⟩, fun _ => rfl⟩
        · exact ih (applyConflictResolution sched r) rc h
      · rw [show resolveConflicts oracle (c :: cs) sched
              = ⟨(resolveConflicts oracle cs sched).schedule,
                 ⟨c, none, false⟩ :: (resolveConflicts oracle cs sched).conflicts,
                 (resolveConflicts oracle cs sched).logs⟩ by
            simp [resolveConflicts, hor, hc]] at hrc
        rcases List.mem_cons.mp hrc with h | h
        · subst h; simp
        · exact ih sched rc h

theorem resolveConflicts_getElem
    (oracle : Conflict → List ScheduleTask → Option Resolution)
    (cs : List Conflict) :
    ∀ (sched : List ScheduleTask) (i : ℕ) (c : Conflict),
      cs.get? i = some c →
      (resolveConflicts oracle cs sched).conflicts.get? i
        = some (match oracle c
                  ((resolveConflicts oracle (cs.take i) sched).schedule) with
                | some r =>
                  if r.confidence > conflictThreshold then ⟨c, some r, true⟩
                  else ⟨c, none, false⟩
                | none => ⟨c, none, false⟩) := by
  induction cs with
  | nil =>
    intro sched i c h
    simp at h
  | cons c0 cs ih =>
    intro sched i c h
    cases i with
    | zero =>
      have hc0 : c0 = c := by simpa using h
      subst hc0
      cases hor : oracle c0 sched with
      | none => simp [resolveConflicts, hor]
      | some r =>
        by_cases hc : r.confidence > conflictThreshold
        · simp [resolveConflicts, hor, hc]
        · simp [resolveConflicts, hor, hc]
    | succ i =>
      have h' : cs.get? i = some c := by simpa using h
      cases hor : oracle c0 sched with
      | none =>
        simpa [resolveConflicts, hor, List.take_succ_cons]
          using ih sched i c h'
      | some r =>
        by_cases hc : r.confidence > conflictThreshold
        · simpa [resolveConflicts, hor, hc, List.take_succ_cons]
            using ih (applyConflictResolution sched r) i c h'
        · simpa [resolveConflicts, hor, hc, List.take_succ_cons]
            using ih sched i c h'

theorem resolveConflicts_schedule_foldl
    (oracle : Conflict → List ScheduleTask → Option Resolution)
    (cs : List Conflict) :
    ∀ sched : List ScheduleTask,
      (resolveConflicts oracle cs sched).schedule
        = (resolveConflicts oracle cs sched).conflicts.foldl
            (fun s rc => match rc.resolution with
              | some r => applyConflictResolution s r
              | none => s) sched := by
  induction cs with
  | nil => intro sched; rfl
  | cons c cs ih =>
    intro sched
    cases hor : oracle c sched with
    | none =>
      simpa [resolveConflicts, hor] using ih sched
    | some r =>
      by_cases hc : r.confidence > conflictThreshold
      · simpa [resolveConflicts, hor, hc]
          using ih (applyConflictResolution sched r)
      · simpa [resolveConflicts, hor, hc] using ih sched

/-- C1: every detected conflict yields exactly one record, in order, never
dropped (the records' original conflicts are exactly the input conflicts);
a record is `applied: true` iff it stores a resolution whose confidence is
strictly greater than 0.7; the record for conflict `i` is determined by
the oracle's answer on the schedule reached after the first `i` conflicts:
applied with the returned resolution iff its confidence exceeds 0.7, and
otherwise `applied: false` with a null stored resolution; and the final
schedule is obtained from the input schedule by applying exactly the
applied records' resolutions. -/
theorem resolveConflicts_confidence_gate
    (oracle : Conflict → List ScheduleTask → Option Resolution)
    (cs : List Conflict) (sched : List ScheduleTask) :
    ((resolveConflicts oracle cs sched).conflicts.map
        (fun rc => rc.originalConflict) = cs)
    ∧ (∀ rc ∈ (resolveConflicts oracle cs sched).conflicts,
        (rc.applied = true ↔
          ∃ r, rc.resolution = some r ∧ r.confidence > conflictThreshold))
    ∧ (∀ (i : ℕ) (c : Conflict), cs.get? i = some c →
        (resolveConflicts oracle cs sched).conflicts.get? i
          = some (match oracle c
                    ((resolveConflicts oracle (cs.take i) sched).schedule) with
                  | some r =>
                    if r.confidence > conflictThreshold then ⟨c, some r, true⟩
                    else ⟨c, none, false⟩
                  | none => ⟨c, none, false⟩))
    ∧ ((resolveConflicts oracle cs sched).schedule
        = (resolveConflicts oracle cs sched).conflicts.foldl
            (fun s rc => match rc.resolution with
              | some r => applyConflictResolution s r
              | none => s) sched) :=
  ⟨resolveConflicts_map_orig oracle cs sched,
   resolveConflicts_applied_iff oracle cs sched,
   resolveConflicts_getElem oracle cs sched,
   resolveConflicts_schedule_foldl oracle cs sched⟩

/-- Witness for C1: a single conflict whose resolution has confidence 0.8
(> 0.7) produces the record `applied: true` with that resolution stored. -/
theorem resolveConflicts_confidence_gate_witness :
    (resolveConflicts wHighOracle [cexConflict] []).conflicts.get? 0
      = some ⟨cexConflict, some wHighRes, true⟩ := by
  have h := (resolveConflicts_confidence_gate wHighOracle [cexConflict]
      []).2.2.1 0 cexConflict rfl
  have hc : wHighRes.confidence > conflictThreshold := by
    norm_num [wHighRes, conflictThreshold]
  simpa [wHighOracle, hc] using h
